import Mathlib

/-!
Verification development for the CourtTracker backend (Gujarat High Court
streaming-board tracker).  The definitions below are a shallow embedding of
the relevant JavaScript source:

* `src/services/cronService.js`   — scheduler (single-flight guard) and the
  scraper/normalizer (`scrapeCourtData`): case-info classification, court
  ordering.
* `src/services/trackingService.js` — per-subscription notification decision
  (`processWatchlistItem`), identifier parsing (`parseCaseIdentifier`),
  case lookup (`findCaseInCourts`) and queue ranking
  (`calculateQueuePosition`).

JavaScript strings become Lean `String`, `null`-able values become `Option`,
machine numbers become `Int`/`Nat` (all values involved are small integers),
and JavaScript truthiness is made explicit (`jsTruthyNum`, `jsTruthyStr`).
Database reads (the device lookup) are passed in as explicit parameters;
alert payload fields that only carry display data (judge name, stream URL,
…) are elided, keeping only the alert type, which is what the emitted
notification intent is discriminated by.
-/

namespace CourtTracker

/-- Case status tags produced by the normalizer (`caseStatus` strings in the
source; `null` is represented by `Option.none` at use sites). -/
inductive CaseStatus
  | IN_SESSION
  | RECESS
  | SITTING_OVER
deriving DecidableEq, Repr

/-- The `lastNotificationSent` enum of the Watchlist model; `nonE` stands for
the string value `'none'` (named to avoid clashing with `Option.none`). -/
inductive NotifState
  | nonE
  | early_warning
  | approaching
  | in_session
  | completed
deriving DecidableEq, Repr

/-- Alert types handed to `sendCaseAlert`. -/
inductive AlertType
  | early_warning
  | approaching
  | in_session
  | completed
deriving DecidableEq, Repr

/-- One normalized court record, restricted to the fields the tracked claims
read (`courtNumber` doubles for `courtNumberShort`, which the scraper assigns
the same value). -/
structure CourtRec where
  courtNumber : String
  caseNumber : Option String
  caseStatus : Option CaseStatus
  queuePosition : Option Int
deriving DecidableEq, Repr

/-- Per-subscription notification flags (`notificationSettings`). -/
structure NotifFlags where
  earlyWarning : Bool
  approaching : Bool
  inSession : Bool
  completed : Bool
deriving DecidableEq, Repr

/-- The watchlist fields the decision step reads and writes.  `caseNumber` is
the stored case identifier; timestamps are integer milliseconds. -/
structure Watch where
  caseNumber : String
  flags : NotifFlags
  lastNotificationSent : NotifState
  lastNotificationTime : Option Int
deriving DecidableEq, Repr

/-- Result of `Device.findOne({deviceId, isActive: true})`: the record's
`fcmToken` field (itself nullable). -/
structure DeviceRec where
  fcmToken : Option String
deriving DecidableEq, Repr

/-- JavaScript truthiness of a nullable number (`0`, `NaN`, `null` are falsy;
`NaN` cannot arise for the parsed integer fields embedded here). -/
def jsTruthyNum : Option Int → Bool
  | some n => n ≠ 0
  | none => false

/-- JavaScript truthiness of a nullable string (`''` and `null` are falsy). -/
def jsTruthyStr : Option String → Bool
  | some s => s ≠ ""
  | none => false

/-! ### String helpers shared by the scraper embedding

`cleanText = (text) => text ? text.replace(/\s+/g, ' ').trim() : ''` and the
pattern tests on the case-info field.  JavaScript `\s` covers space, tab,
line terminators and a handful of unicode spaces; the embedding lists the
ones that can occur in the feed text. -/

def isJsWs (c : Char) : Bool :=
  c = ' ' || c = '\t' || c = '\n' || c = '\r' ||
  c = '\x0b' || c = '\x0c' || c = '\u00A0' ||
  c = '\u2028' || c = '\u2029' || c = '\uFEFF'

/-- Collapse consecutive spaces to one (used after mapping every whitespace
character to a space; together this is `replace(/\s+/g, ' ')`). -/
def squeeze : List Char → List Char
  | [] => []
  | [c] => [c]
  | a :: b :: t =>
    if a = ' ' && b = ' ' then squeeze (b :: t) else a :: squeeze (b :: t)

/-- `String.prototype.trim`: drop whitespace from both ends. -/
def jsTrimL (l : List Char) : List Char :=
  ((l.dropWhile isJsWs).reverse.dropWhile isJsWs).reverse

def jsTrim (s : String) : String :=
  String.mk (jsTrimL s.toList)

/-- `cleanText` from `scraperService.js`: falsy input ⇒ `''`, otherwise
collapse whitespace runs to single spaces and trim. -/
def cleanText (text : Option String) : String :=
  match text with
  | none => ""
  | some t =>
    if t = "" then ""
    else jsTrim (String.mk (squeeze (t.toList.map (fun c => if isJsWs c then ' ' else c))))

/-- `isValidValue = (val) => val && val !== '-' && val.trim() !== ''`. -/
def isValidValue (val : String) : Bool :=
  val ≠ "" && val ≠ "-" && jsTrim val ≠ ""

/-- Exact (case-sensitive) list prefix test. -/
def isPreOf : List Char → List Char → Bool
  | [], _ => true
  | _ :: _, [] => false
  | a :: as, b :: bs => a = b && isPreOf as bs

/-- Case-insensitive prefix match (ASCII, as in a JavaScript `/…/i` regex on
this alphabet), returning the rest of the input on success. -/
def matchCI : List Char → List Char → Option (List Char)
  | [], s => some s
  | _ :: _, [] => none
  | a :: as, b :: bs => if a.toUpper = b.toUpper then matchCI as bs else none

/-- Does `/COURT\s*SITTING\s*OVER/i` match at the head of the input? -/
def sittingOverAt (s : List Char) : Bool :=
  match matchCI "COURT".toList s with
  | none => false
  | some r1 =>
    match matchCI "SITTING".toList (r1.dropWhile isJsWs) with
    | none => false
    | some r2 => (matchCI "OVER".toList (r2.dropWhile isJsWs)).isSome

/-- Does `p` hold at some suffix of the list? -/
def anySuffix (p : List Char → Bool) : List Char → Bool
  | [] => p []
  | c :: t => p (c :: t) || anySuffix p t

/-- `/COURT\s*SITTING\s*OVER/i.test(text)`. -/
def containsSittingOver (s : String) : Bool :=
  anySuffix sittingOverAt s.toList

/-- `text.includes(pat)` for a non-empty pattern. -/
def containsSub (pat : List Char) (s : List Char) : Bool :=
  anySuffix (isPreOf pat) s

/-- `text.replace(pat, '')` for a literal non-empty pattern: remove the first
occurrence, if any. -/
def replaceFirstL (pat : List Char) : List Char → List Char
  | [] => []
  | c :: t =>
    if isPreOf pat (c :: t) then (c :: t).drop pat.length
    else c :: replaceFirstL pat t

/-- Result of the case-info classification inside `scrapeCourtData`. -/
structure CaseInfoResult where
  caseStatus : Option CaseStatus
  caseNumber : Option String
deriving DecidableEq, Repr

/-- The ordered pattern rules of `scrapeCourtData` applied to the cleaned
case-info text (`caseFooterText`), lines 210–226 of the scraper. -/
def classifyCaseInfo (caseFooterText : String) : CaseInfoResult :=
  if caseFooterText = "" then ⟨none, none⟩
  else if containsSittingOver caseFooterText then ⟨some .SITTING_OVER, none⟩
  else if containsSub "(RECESS)".toList caseFooterText.toList then
    ⟨some .RECESS,
      some (jsTrim (String.mk (replaceFirstL "(RECESS)".toList caseFooterText.toList)))⟩
  else if isValidValue caseFooterText then ⟨some .IN_SESSION, some caseFooterText⟩
  else ⟨none, none⟩

/-- End-to-end classification of one raw row's `caseinfo` field:
`caseFooterText = cleanText(row.caseinfo)` followed by the pattern rules. -/
def normalizeCaseInfo (caseinfo : Option String) : CaseInfoResult :=
  classifyCaseInfo (cleanText caseinfo)

/-! ### Snapshot ordering (`scrapeCourtData`, lines 269–273)

`courts.sort((a, b) => (parseInt(a.courtNumberShort) || 9999) -
(parseInt(b.courtNumberShort) || 9999))`.  `parseInt` skips leading
whitespace, takes an optional sign, honours a `0x`/`0X` hex prefix, then
parses the longest run of digits, yielding `NaN` when there is none.  The
engine's `Array.prototype.sort` is stable; it is embedded as a stable merge
sort over the comparator's induced `≤`. -/

def digitVal (c : Char) : Nat := c.toNat - '0'.toNat

def decDigitsVal (ds : List Char) : Nat :=
  ds.foldl (fun acc c => acc * 10 + digitVal c) 0

def isHexDig (c : Char) : Bool :=
  c.isDigit || ('a' ≤ c && c ≤ 'f') || ('A' ≤ c && c ≤ 'F')

def hexDigitVal (c : Char) : Nat :=
  if c.isDigit then digitVal c
  else if 'a' ≤ c && c ≤ 'f' then c.toNat - 'a'.toNat + 10
  else c.toNat - 'A'.toNat + 10

def hexDigitsVal (ds : List Char) : Nat :=
  ds.foldl (fun acc c => acc * 16 + hexDigitVal c) 0

/-- `parseInt(s)` (radix auto-detected); `none` embeds `NaN`. -/
def jsParseInt (s : String) : Option Int :=
  let cs := s.toList.dropWhile isJsWs
  let signAndRest : Int × List Char :=
    match cs with
    | '-' :: t => (-1, t)
    | '+' :: t => (1, t)
    | _ => (1, cs)
  let sign := signAndRest.1
  let body := signAndRest.2
  match body with
  | '0' :: x :: t =>
    if x = 'x' || x = 'X' then
      let ds := t.takeWhile isHexDig
      if ds = [] then none else some (sign * (hexDigitsVal ds : Int))
    else
      let ds := (('0' :: x :: t).takeWhile Char.isDigit)
      if ds = [] then none else some (sign * (decDigitsVal ds : Int))
  | _ =>
    let ds := body.takeWhile Char.isDigit
    if ds = [] then none else some (sign * (decDigitsVal ds : Int))

/-- The comparator key: `parseInt(c.courtNumberShort) || 9999` — both `NaN`
and `0` are falsy, so both collapse to the sentinel `9999`. -/
def sortKey (c : CourtRec) : Int :=
  match jsParseInt c.courtNumber with
  | some n => if n = 0 then 9999 else n
  | none => 9999

/-- The snapshot ordering step of `scrapeCourtData`. -/
def sortCourts (courts : List CourtRec) : List CourtRec :=
  courts.mergeSort (fun a b => sortKey a ≤ sortKey b)

/-! ### `trackingService.js` -/

/-- Result of `parseCaseIdentifier`: a scoped position reference, or a case
number optionally scoped to a court. -/
inductive ParsedId
  | position (courtNumber : String) (position : Int)
  | caseNum (courtNumber : Option String) (caseNumber : String)
deriving DecidableEq, Repr

/-- JavaScript line terminators, which `.` does not match in a regex without
the `s` flag. -/
def isLineTerm (c : Char) : Bool :=
  c = '\n' || c = '\r' || c = '\u2028' || c = '\u2029'

/-- `parseCaseIdentifier`: match `/^COURT:(\d+):(.+)$/i`; a numeric remainder
(`/^\d+$/`) is a position, any other remainder a scoped case number; no match
means a bare case number. -/
def parseCaseIdentifier (caseIdentifier : String) : ParsedId :=
  match matchCI "COURT:".toList caseIdentifier.toList with
  | none => .caseNum none caseIdentifier
  | some rest =>
    let ds := rest.takeWhile Char.isDigit
    let after := rest.dropWhile Char.isDigit
    if ds = [] then .caseNum none caseIdentifier
    else
      match after with
      | ':' :: rem =>
        if rem ≠ [] && rem.all (fun c => !isLineTerm c) then
          if rem.all Char.isDigit then
            .position (String.mk ds) (decDigitsVal rem : Int)
          else
            .caseNum (some (String.mk ds)) (String.mk rem)
        else .caseNum none caseIdentifier
      | _ => .caseNum none caseIdentifier

/-- `findCaseInCourts`: first match in feed order under the parsed
identifier's matching rule (strict `===` comparisons: `null` never equals a
string or number). -/
def findCaseInCourts (courts : List CourtRec) (identifier : String) :
    Option CourtRec :=
  match parseCaseIdentifier identifier with
  | .position cn p =>
    courts.find? (fun c => c.courtNumber = cn && c.queuePosition = some p)
  | .caseNum (some cn) n =>
    courts.find? (fun c => c.courtNumber = cn && c.caseNumber = some n)
  | .caseNum none n =>
    courts.find? (fun c => c.caseNumber = some n)

/-- `calculateQueuePosition(caseNumber, courtWithCase, sameCourt)`:
rank by explicit `queuePosition` when the target has one, otherwise by
ordinal rank among the still-pending records of the court. -/
def calculateQueuePosition (caseNumber : Option String)
    (courtWithCase : CourtRec) (sameCourt : List CourtRec) : Option Int :=
  match courtWithCase.queuePosition with
  | some q =>
    let casesAhead := (sameCourt.filter (fun c =>
      match c.queuePosition with
      | some p =>
        decide (p < q) &&
        c.caseStatus ≠ some CaseStatus.IN_SESSION &&
        c.caseStatus ≠ some CaseStatus.SITTING_OVER
      | none => false)).length
    some ((casesAhead : Int) + 1)
  | none =>
    match sameCourt.findIdx? (fun c => c.caseNumber = caseNumber) with
    | none => none
    | some _ =>
      let pendingCases := sameCourt.filter (fun c =>
        c.caseStatus ≠ some CaseStatus.IN_SESSION &&
        c.caseStatus ≠ some CaseStatus.SITTING_OVER)
      match pendingCases.findIdx? (fun c => c.caseNumber = caseNumber) with
      | some i => some ((i : Int) + 1)
      | none => none

/-- Outcome of one `processWatchlistItem` call: the subscription fields it
may write back, and the alerts it sends (in order). -/
structure StepResult where
  lastNotificationSent : NotifState
  lastNotificationTime : Option Int
  alerts : List AlertType
deriving DecidableEq, Repr

/-- The no-op outcome: fields unchanged, nothing sent. -/
def unchanged (watch : Watch) : StepResult :=
  ⟨watch.lastNotificationSent, watch.lastNotificationTime, []⟩

/-- `processWatchlistItem(watch, courts, courtsByCourt, scrapedAt)`.

`device` is the result of `Device.findOne({deviceId, isActive: true})`;
`earlyWarningThreshold` is `parseInt(process.env.NOTIFICATION_EARLY_WARNING_COUNT || 5)`;
`now` is the value of `new Date()` during the call.  `courtsByCourt[n]` is
the subsequence of `courts` with court number `n` (built in
`processCaseUpdates` by pushing in feed order), inlined here as a filter.
The early-warning and approaching blocks are two ifs run in sequence, so the
second reads the state the first may have written. -/
def processWatchlistItem (watch : Watch) (courts : List CourtRec)
    (device : Option DeviceRec) (earlyWarningThreshold : Int) (now : Int) :
    StepResult :=
  match findCaseInCourts courts watch.caseNumber with
  | none =>
    if watch.lastNotificationSent = .in_session ∨
        watch.lastNotificationSent = .approaching then
      match device with
      | some d =>
        if jsTruthyStr d.fcmToken && watch.flags.completed then
          ⟨.completed, some now, [.completed]⟩
        else unchanged watch
      | none => unchanged watch
    else unchanged watch
  | some courtWithCase =>
    match device with
    | none => unchanged watch
    | some d =>
      if !jsTruthyStr d.fcmToken then unchanged watch
      else if courtWithCase.caseStatus = some .IN_SESSION then
        if watch.flags.inSession &&
            watch.lastNotificationSent ≠ NotifState.in_session then
          ⟨.in_session, some now, [.in_session]⟩
        else unchanged watch
      else if jsTruthyNum courtWithCase.queuePosition then
        let sameCourt := courts.filter
          (fun c => c.courtNumber = courtWithCase.courtNumber)
        match calculateQueuePosition courtWithCase.caseNumber courtWithCase
            sameCourt with
        | none => unchanged watch
        | some position =>
          let r1 : StepResult :=
            if position ≤ earlyWarningThreshold ∧ 1 < position then
              if watch.flags.earlyWarning &&
                  (watch.lastNotificationSent = NotifState.nonE ||
                   watch.lastNotificationSent = NotifState.completed) then
                ⟨.early_warning, some now, [.early_warning]⟩
              else unchanged watch
            else unchanged watch
          if position = 1 then
            if watch.flags.approaching &&
                r1.lastNotificationSent ≠ NotifState.approaching &&
                r1.lastNotificationSent ≠ NotifState.in_session then
              ⟨.approaching, some now, r1.alerts ++ [.approaching]⟩
            else r1
          else r1
      else unchanged watch

/-! ### Scheduler single-flight guard (`cronService.js`, lines 18–49)

The `setInterval` callback is an async function; JavaScript runs it on a
single thread, so the synchronous prefix up to the first `await` — the
`isScraperRunning` check, setting the flag, bumping `scrapeCount` and
invoking `scrapeCourtData()` (the fetch starts before its first `await`
suspends) — executes atomically.  A `tick` event models that prefix; a
`cycleEnd` event models the `finally` block of a previously started cycle.
`activeCycles` instruments the state with the number of cycles between their
tick and their `finally`, to state the single-flight property. -/

structure SchedulerState where
  isScraperRunning : Bool
  scrapeCount : Nat
  skippedTicks : Nat
  activeCycles : Nat
deriving DecidableEq, Repr

inductive SchedulerEvent
  | tick
  | cycleEnd
deriving DecidableEq, Repr

def schedStep : SchedulerEvent → SchedulerState → SchedulerState
  | .tick, s =>
    if s.isScraperRunning then { s with skippedTicks := s.skippedTicks + 1 }
    else { s with
            isScraperRunning := true
            scrapeCount := s.scrapeCount + 1
            activeCycles := s.activeCycles + 1 }
  | .cycleEnd, s =>
    { s with isScraperRunning := false, activeCycles := s.activeCycles - 1 }

/-- Module-load state: `isScraperRunning = false`, `scrapeCount = 0`. -/
def schedInit : SchedulerState := ⟨false, 0, 0, 0⟩

/-- States reachable by the event loop: a `cycleEnd` (the `finally` block)
only fires for a cycle that started, i.e. while the flag is set. -/
inductive SchedReachable : SchedulerState → Prop
  | init : SchedReachable schedInit
  | tick {s} : SchedReachable s → SchedReachable (schedStep .tick s)
  | cycleEnd {s} : SchedReachable s → s.isScraperRunning = true →
      SchedReachable (schedStep .cycleEnd s)

/-! ### Claim-side vocabulary and concrete scenario data -/

/-- "Still pending" in the spec's sense: status not `IN_SESSION` and not
`SITTING_OVER` (the predicate the queue filters use). -/
def stillPending (c : CourtRec) : Bool :=
  c.caseStatus ≠ some CaseStatus.IN_SESSION &&
  c.caseStatus ≠ some CaseStatus.SITTING_OVER

/-- Position of a notification state along
`none → early_warning → approaching → in_session → completed`. -/
def rank : NotifState → Nat
  | .nonE => 0
  | .early_warning => 1
  | .approaching => 2
  | .in_session => 3
  | .completed => 4

/-- The ordering claim C6 asserts for snapshots: ascending by numeric court
number, with non-numeric court numbers after every numeric one. -/
def courtLeSpec (a b : CourtRec) : Prop :=
  match jsParseInt a.courtNumber, jsParseInt b.courtNumber with
  | some m, some n => m ≤ n
  | some _, none => True
  | none, some _ => False
  | none, none => True

def numericallyOrdered (l : List CourtRec) : Prop :=
  List.Pairwise courtLeSpec l

def flagsAll : NotifFlags := ⟨true, true, true, true⟩

def devTok : DeviceRec := ⟨some "tok"⟩

/-- Court `"5"` scenario records (queue positions 10, 12, 15). -/
def caseA : CourtRec := ⟨"5", some "A", none, some 10⟩

def caseB : CourtRec := ⟨"5", some "B", none, some 12⟩

def caseC : CourtRec := ⟨"5", some "C", none, some 15⟩

/-- A record currently being heard, case number `"X"`. -/
def courtInSession : CourtRec := ⟨"1", some "X", some .IN_SESSION, none⟩

/-- Subscription to `"X"` whose state is already `in_session`, last alerted
at time 0. -/
def watchInSession : Watch := ⟨"X", flagsAll, .in_session, some 0⟩

/-- Subscription to `"X"` whose state is `completed`. -/
def watchCompleted : Watch := ⟨"X", flagsAll, .completed, some 0⟩

/-- Subscription to `"Y"` (absent from the snapshot) in state `approaching`. -/
def watchApproachingY : Watch := ⟨"Y", flagsAll, .approaching, some 0⟩

/-- Subscription to `"Y"` (absent) already in state `completed`. -/
def watchCompletedY : Watch := ⟨"Y", flagsAll, .completed, some 0⟩

/-- A pending record whose parsed queue position is `0`. -/
def courtZeroQP : CourtRec := ⟨"2", some "Z", none, some 0⟩

def watchZ : Watch := ⟨"Z", flagsAll, .nonE, none⟩

/-- Court `"7"` fallback-ranking records: `PA` in session, `PB`, `PC`
pending, none carrying a queue position. -/
def pendRecA : CourtRec := ⟨"7", some "PA", some .IN_SESSION, none⟩

def pendRecB : CourtRec := ⟨"7", some "PB", none, none⟩

def pendRecC : CourtRec := ⟨"7", some "PC", none, none⟩

/-- Records whose court numbers are `"0"` and `"3"`. -/
def rzero : CourtRec := ⟨"0", none, none, none⟩

def rthree : CourtRec := ⟨"3", none, none, none⟩

/-! ### C2 — explicit queue-position ranking -/

/-- C2: when the target record carries a non-null `queuePosition`, the
calculation returns 1 plus the count of still-pending records of the court
with a strictly smaller `queuePosition` (records without one never count,
and the target itself never satisfies the strict inequality); in the court
`"5"` scenario with pending queue positions 10, 12, 15 the resolved position
of case `B` is 2. -/
theorem c2_queue_position_explicit :
    (∀ (n : Option String) (target : CourtRec) (sameCourt : List CourtRec)
        (q : Int), target.queuePosition = some q →
      calculateQueuePosition n target sameCourt =
        some (1 + (sameCourt.countP (fun c =>
          stillPending c &&
          (match c.queuePosition with
           | some p => decide (p < q)
           | none => false)) : Int))) ∧
    calculateQueuePosition (some "B") caseB [caseA, caseB, caseC] = some 2 := by
  constructor
  · intro n target sameCourt q h
    unfold calculateQueuePosition
    rw [h]
    dsimp only
    rw [List.countP_eq_length_filter]
    have hpred : (sameCourt.filter (fun c : CourtRec =>
        match c.queuePosition with
        | some p =>
          decide (p < q) &&
          c.caseStatus ≠ some CaseStatus.IN_SESSION &&
          c.caseStatus ≠ some CaseStatus.SITTING_OVER
        | none => false)) = (sameCourt.filter (fun c : CourtRec =>
          stillPending c &&
          (match c.queuePosition with
           | some p => decide (p < q)
           | none => false))) := by
      apply List.filter_congr
      intro c _
      cases c.queuePosition with
      | none => simp
      | some p =>
        cases hx : decide (p < q) <;>
          cases hy : decide (c.caseStatus ≠ some CaseStatus.IN_SESSION) <;>
          cases hz : decide (c.caseStatus ≠ some CaseStatus.SITTING_OVER) <;>
          simp [stillPending, hx, hy, hz]
    rw [hpred]
    push_cast
    ring_nf
  · decide

/-- Witness for C2: the general clause applied to the court `"5"` scenario
(target `B`, queue position 12). -/
theorem c2_queue_position_explicit_witness :
    calculateQueuePosition (some "B") caseB [caseA, caseB, caseC] =
      some (1 + ([caseA, caseB, caseC].countP (fun c =>
        stillPending c &&
        (match c.queuePosition with
         | some p => decide (p < 12)
         | none => false)) : Int)) :=
  c2_queue_position_explicit.1 (some "B") caseB [caseA, caseB, caseC] 12 rfl

/-! ### C7 — ordinal fallback ranking -/

/-- C7: when the target record has no `queuePosition`, the calculation
returns 1 plus the index of the target case number among the court's
still-pending records in feed order, and `none` when the case number is
absent from the pending records (not found in the court at all, or found
only on non-pending records). -/
theorem c7_fallback_ordinal_rank :
    ∀ (n : Option String) (target : CourtRec) (sameCourt : List CourtRec),
      target.queuePosition = none →
      calculateQueuePosition n target sameCourt =
        ((sameCourt.filter stillPending).findIdx?
          (fun c => c.caseNumber = n)).map (fun i : Nat => (i : Int) + 1) := by
  intro n target sameCourt h
  have key : ∀ o : Option Nat,
      (match o with
       | some i => some ((i : Int) + 1)
       | none => (none : Option Int)) =
      o.map (fun i : Nat => (i : Int) + 1) := by
    intro o
    cases o <;> rfl
  unfold calculateQueuePosition
  rw [h]
  dsimp only
  cases h1 : sameCourt.findIdx? (fun c => c.caseNumber = n) with
  | none =>
    have hall := List.findIdx?_eq_none_iff.mp h1
    have h2 : (sameCourt.filter stillPending).findIdx?
        (fun c => c.caseNumber = n) = none :=
      List.findIdx?_eq_none_iff.mpr
        (fun c hc => hall c (List.mem_filter.mp hc).1)
    rw [h2]
    rfl
  | some j =>
    dsimp only
    exact key ((sameCourt.filter stillPending).findIdx?
      (fun c => c.caseNumber = n))

/-- Witness for C7: court `"7"` with `PA` in session and `PB`, `PC` pending,
target `PC` (no queue position): both sides evaluate, to position 2. -/
theorem c7_fallback_ordinal_rank_witness :
    calculateQueuePosition (some "PC") pendRecC [pendRecA, pendRecB, pendRecC] =
      (([pendRecA, pendRecB, pendRecC].filter stillPending).findIdx?
        (fun c => c.caseNumber = some "PC")).map (fun i : Nat => (i : Int) + 1) ∧
    calculateQueuePosition (some "PC") pendRecC [pendRecA, pendRecB, pendRecC] =
      some 2 :=
  ⟨c7_fallback_ordinal_rank (some "PC") pendRecC [pendRecA, pendRecB, pendRecC]
    rfl, by decide⟩

/-! ### C10 — a zero queue position is treated as missing -/

/-- C10: a found record with status ≠ IN_SESSION and `queuePosition = 0` is
treated as having no queue position — the decision changes nothing and emits
nothing — although `0` would resolve to position 1 (when no queue position
in the court is negative). -/
theorem c10_zero_queue_position_skipped :
    ∀ (watch : Watch) (courts : List CourtRec) (device : Option DeviceRec)
      (thr now : Int) (court : CourtRec),
      findCaseInCourts courts watch.caseNumber = some court →
      court.caseStatus ≠ some CaseStatus.IN_SESSION →
      court.queuePosition = some 0 →
      processWatchlistItem watch courts device thr now = unchanged watch ∧
      ((∀ c ∈ courts.filter (fun c => c.courtNumber = court.courtNumber),
          ∀ p : Int, c.queuePosition = some p → 0 ≤ p) →
        calculateQueuePosition court.caseNumber court
          (courts.filter (fun c => c.courtNumber = court.courtNumber)) =
          some 1) := by
  intro watch courts device thr now court hf hs hq
  constructor
  · unfold processWatchlistItem
    rw [hf]
    dsimp only
    cases device with
    | none => rfl
    | some d =>
      dsimp only
      by_cases ht : jsTruthyStr d.fcmToken = true
      · rw [if_neg (by simp [ht]), if_neg (by simpa using hs), hq]
        rw [if_neg (by decide)]
      · simp only [Bool.not_eq_true] at ht
        rw [if_pos (by rw [ht]; rfl)]
  · intro hpos
    unfold calculateQueuePosition
    rw [hq]
    dsimp only
    have hnil : (courts.filter (fun c => c.courtNumber = court.courtNumber)).filter
        (fun c =>
          match c.queuePosition with
          | some p =>
            decide (p < 0) &&
            c.caseStatus ≠ some CaseStatus.IN_SESSION &&
            c.caseStatus ≠ some CaseStatus.SITTING_OVER
          | none => false) = [] := by
      rw [List.filter_eq_nil_iff]
      intro c hc
      cases hcq : c.queuePosition with
      | none => simp
      | some p =>
        have h0p : decide (p < 0) = false :=
          decide_eq_false (not_lt.mpr (hpos c hc p hcq))
        simp [hcq, h0p]
    rw [hnil]
    rfl

/-- Witness for C10: subscription to `"Z"`, record in court `"2"` pending
with queue position 0; the step is a no-op and the hypothetical resolution
is position 1. -/
theorem c10_zero_queue_position_skipped_witness :
    processWatchlistItem watchZ [courtZeroQP] (some devTok) 5 77 =
      unchanged watchZ ∧
    calculateQueuePosition courtZeroQP.caseNumber courtZeroQP
      ([courtZeroQP].filter (fun c => c.courtNumber = courtZeroQP.courtNumber)) =
      some 1 := by
  have h := c10_zero_queue_position_skipped watchZ [courtZeroQP] (some devTok)
    5 77 courtZeroQP (by decide) (by decide) (by decide)
  exact ⟨h.1, h.2 (by decide)⟩

/-! ### C4 — case absent from the snapshot -/

/-- C4: with the case absent, the step emits exactly one completed alert and
moves to `completed` precisely when the state is `in_session` or
`approaching`, the `completed` flag is on, and an active device with a
token exists; in every other situation (state already `completed` included)
nothing changes and nothing is emitted — so a second cycle with the case
still absent emits nothing. -/
theorem c4_not_found_completion :
    ∀ (watch : Watch) (courts : List CourtRec) (device : Option DeviceRec)
      (thr now : Int),
      findCaseInCourts courts watch.caseNumber = none →
      (((watch.lastNotificationSent = .in_session ∨
          watch.lastNotificationSent = .approaching) ∧
        (∃ d, device = some d ∧ jsTruthyStr d.fcmToken = true) ∧
        watch.flags.completed = true) →
          processWatchlistItem watch courts device thr now =
            ⟨.completed, some now, [.completed]⟩) ∧
      (¬ ((watch.lastNotificationSent = .in_session ∨
          watch.lastNotificationSent = .approaching) ∧
        (∃ d, device = some d ∧ jsTruthyStr d.fcmToken = true) ∧
        watch.flags.completed = true) →
          processWatchlistItem watch courts device thr now = unchanged watch) ∧
      (watch.lastNotificationSent = .completed →
          processWatchlistItem watch courts device thr now = unchanged watch) := by
  intro watch courts device thr now hf
  have hbase : processWatchlistItem watch courts device thr now =
      (if watch.lastNotificationSent = .in_session ∨
          watch.lastNotificationSent = .approaching then
        match device with
        | some d =>
          if jsTruthyStr d.fcmToken && watch.flags.completed then
            ⟨.completed, some now, [.completed]⟩
          else unchanged watch
        | none => unchanged watch
      else unchanged watch) := by
    unfold processWatchlistItem
    rw [hf]
  refine ⟨?_, ?_, ?_⟩
  · rintro ⟨hstate, ⟨d, hd, htok⟩, hflag⟩
    rw [hbase, if_pos hstate, hd]
    dsimp only
    rw [if_pos (by rw [htok, hflag]; rfl)]
  · intro hneg
    rw [hbase]
    by_cases hstate : watch.lastNotificationSent = .in_session ∨
        watch.lastNotificationSent = .approaching
    · rw [if_pos hstate]
      cases hd : device with
      | none => rfl
      | some d =>
        dsimp only
        have hnot : ¬ (jsTruthyStr d.fcmToken = true ∧
            watch.flags.completed = true) := by
          intro ⟨h1, h2⟩
          exact hneg ⟨hstate, ⟨d, hd, h1⟩, h2⟩
        rw [if_neg (by simpa [Bool.and_eq_true] using hnot)]
    · rw [if_neg hstate]
  · intro hcomp
    rw [hbase, if_neg (by simp [hcomp])]

/-- Witness for C4: case `"Y"` absent.  From `approaching` with the
`completed` flag on, one completed alert fires; from `completed`, a further
cycle is a no-op. -/
theorem c4_not_found_completion_witness :
    processWatchlistItem watchApproachingY [courtInSession] (some devTok) 5 9 =
      ⟨.completed, some 9, [.completed]⟩ ∧
    processWatchlistItem watchCompletedY [courtInSession] (some devTok) 5 9 =
      unchanged watchCompletedY :=
  ⟨(c4_not_found_completion watchApproachingY [courtInSession] (some devTok)
      5 9 (by decide)).1 ⟨Or.inr rfl, ⟨devTok, rfl, by decide⟩, rfl⟩,
   (c4_not_found_completion watchCompletedY [courtInSession] (some devTok)
      5 9 (by decide)).2.2 rfl⟩

/-! ### C9 — single-flight scheduler guard -/

/-- The running flag mirrors the (instrumented) count of in-flight cycles. -/
theorem sched_active_eq_flag {s : SchedulerState} (h : SchedReachable s) :
    s.activeCycles = (if s.isScraperRunning then 1 else 0) := by
  induction h with
  | init => rfl
  | @tick s h ih =>
    by_cases hr : s.isScraperRunning = true
    · simp only [schedStep, hr, if_true]
      simpa [hr] using ih
    · have hb : s.isScraperRunning = false := by simpa using hr
      simp only [hb, if_false] at ih
      simp [schedStep, hb, ih]
  | @cycleEnd s h hr ih =>
    simp only [hr, if_true] at ih
    simp [schedStep, ih]

/-- C9: a tick that fires while the running flag is set only bumps the skip
counter — no fetch, no state change, nothing queued; any number of such
ticks leaves the fetch count untouched while the cycle runs; and at most one
cycle is in flight in every reachable scheduler state. -/
theorem c9_single_flight_guard :
    (∀ s : SchedulerState, s.isScraperRunning = true →
      schedStep .tick s = { s with skippedTicks := s.skippedTicks + 1 }) ∧
    (∀ (s : SchedulerState) (n : Nat), s.isScraperRunning = true →
      ((schedStep .tick)^[n] s).scrapeCount = s.scrapeCount ∧
      ((schedStep .tick)^[n] s).isScraperRunning = true) ∧
    (∀ s : SchedulerState, SchedReachable s → s.activeCycles ≤ 1) := by
  refine ⟨?_, ?_, ?_⟩
  · intro s hr
    simp [schedStep, hr]
  · intro s n hr
    induction n with
    | zero => exact ⟨rfl, hr⟩
    | succ n ih =>
      obtain ⟨h1, h2⟩ := ih
      rw [Function.iterate_succ_apply']
      constructor
      · rw [show schedStep .tick ((schedStep .tick)^[n] s) =
            { (schedStep .tick)^[n] s with
              skippedTicks := ((schedStep .tick)^[n] s).skippedTicks + 1 } by
            simp [schedStep, h2]]
        exact h1
      · simp [schedStep, h2]
  · intro s h
    rw [sched_active_eq_flag h]
    split <;> omega

/-- Witness for C9: a busy state absorbs a tick into the skip counter (and
two stacked ticks leave the fetch count at 3); the initial state has no
in-flight cycle. -/
theorem c9_single_flight_guard_witness :
    schedStep .tick ⟨true, 3, 0, 1⟩ =
      { isScraperRunning := true, scrapeCount := 3,
        skippedTicks := 1, activeCycles := 1 } ∧
    ((schedStep .tick)^[2] (⟨true, 3, 0, 1⟩ : SchedulerState)).scrapeCount = 3 ∧
    schedInit.activeCycles ≤ 1 :=
  ⟨c9_single_flight_guard.1 ⟨true, 3, 0, 1⟩ rfl,
   (c9_single_flight_guard.2.1 ⟨true, 3, 0, 1⟩ 2 rfl).1,
   c9_single_flight_guard.2.2 schedInit SchedReachable.init⟩

/-! ### C6 — snapshot ordering -/

/-- C6 counterexample: the sort key maps the numeric court number `"0"` to
the sentinel 9999 (because `parseInt(...) || 9999` treats 0 as falsy), so a
snapshot containing courts `"0"` and `"3"` comes out as `["3", "0"]` — not
ascending by numeric court number. -/
theorem c6_counterexample_zero_court :
    sortCourts [rzero, rthree] = [rthree, rzero] ∧
    jsParseInt rzero.courtNumber = some 0 ∧
    jsParseInt rthree.courtNumber = some 3 ∧
    ¬ numericallyOrdered (sortCourts [rzero, rthree]) := by
  have h03 : (decide (sortKey rzero ≤ sortKey rthree)) = false := by decide
  have hsort : sortCourts [rzero, rthree] = [rthree, rzero] := by
    simp [sortCourts, List.mergeSort, h03]
  refine ⟨hsort, by decide, by decide, ?_⟩
  rw [hsort]
  intro h
  have hrel : courtLeSpec rthree rzero :=
    (List.pairwise_cons.mp h).1 rzero (by simp)
  unfold courtLeSpec at hrel
  have e0 : jsParseInt rzero.courtNumber = some 0 := by decide
  have e3 : jsParseInt rthree.courtNumber = some 3 := by decide
  rw [e0, e3] at hrel
  exact absurd hrel (by decide)

/-- C6 amended: the produced sequence is a permutation of the records,
ordered by ascending comparator key, where a record's key is `parseInt` of
its court number when that parse yields a nonzero value and the sentinel
9999 otherwise (so non-numeric *and zero* court numbers sort last, tied at
9999). -/
theorem c6_sorted_by_comparator_key :
    ∀ courts : List CourtRec,
      (sortCourts courts).Perm courts ∧
      List.Pairwise (fun a b => sortKey a ≤ sortKey b) (sortCourts courts) := by
  intro courts
  constructor
  · exact List.mergeSort_perm courts _
  · unfold sortCourts
    exact (@List.sorted_mergeSort CourtRec
      (fun a b => decide (sortKey a ≤ sortKey b))
      (fun a b c h1 h2 => decide_eq_true
        (le_trans (of_decide_eq_true h1) (of_decide_eq_true h2)))
      (fun a b => by
        rcases le_total (sortKey a) (sortKey b) with h | h <;> simp [h])
      courts).imp (fun hab => of_decide_eq_true hab)

/-! ### C1 — in-session alerting has no repeat interval -/

/-- C1 counterexample: subscription in state `in_session`, last alerted more
than 5 minutes ago (stored time 0, now 360001 ms), case still IN_SESSION
with the flag enabled and a valid device — yet no alert is emitted and
`lastNotificationTime` is not refreshed, contradicting the claimed 5-minute
repeat rule. -/
theorem c1_counterexample_no_five_minute_repeat :
    processWatchlistItem watchInSession [courtInSession] (some devTok) 5 360001 =
      ⟨.in_session, some 0, []⟩ ∧
    watchInSession.lastNotificationSent = .in_session ∧
    watchInSession.flags.inSession = true ∧
    ((360001 : Int) - 0 > 5 * 60 * 1000) ∧
    ¬ ((processWatchlistItem watchInSession [courtInSession] (some devTok)
          5 360001).alerts = [.in_session] ∨
       (processWatchlistItem watchInSession [courtInSession] (some devTok)
          5 360001).lastNotificationTime = some 360001) := by
  refine ⟨by decide, rfl, rfl, by decide, by decide⟩

/-- C1 amended: for a found IN_SESSION case with a valid device, the step
emits the in-session alert and refreshes `lastNotificationTime` exactly when
the `inSession` flag is on and `lastNotificationSent ≠ in_session`; once the
state is `in_session` (or the flag is off) nothing is emitted and nothing is
refreshed, no matter how much time has elapsed — there is no repeat
interval. -/
theorem c1_in_session_no_repeat :
    ∀ (watch : Watch) (courts : List CourtRec) (d : DeviceRec) (thr now : Int)
      (court : CourtRec),
      findCaseInCourts courts watch.caseNumber = some court →
      court.caseStatus = some CaseStatus.IN_SESSION →
      jsTruthyStr d.fcmToken = true →
      ((watch.flags.inSession = true ∧
          watch.lastNotificationSent ≠ .in_session →
        processWatchlistItem watch courts (some d) thr now =
          ⟨.in_session, some now, [.in_session]⟩) ∧
       (watch.flags.inSession = false ∨
          watch.lastNotificationSent = .in_session →
        processWatchlistItem watch courts (some d) thr now =
          unchanged watch)) := by
  intro watch courts d thr now court hf hs ht
  have hbase : processWatchlistItem watch courts (some d) thr now =
      (if watch.flags.inSession &&
          watch.lastNotificationSent ≠ NotifState.in_session then
        ⟨.in_session, some now, [.in_session]⟩
      else unchanged watch) := by
    unfold processWatchlistItem
    rw [hf]
    dsimp only
    rw [if_neg (by simp [ht]), if_pos hs]
  constructor
  · rintro ⟨h1, h2⟩
    rw [hbase, if_pos (by simp [h1, h2])]
  · intro h
    rw [hbase]
    rcases h with h | h <;> rw [if_neg (by simp [h])]

/-- Witness for C1 (amended): a fresh subscription (`none` state) gets the
in-session alert; the same inputs with state `in_session` are a no-op even
though 6 minutes have elapsed. -/
theorem c1_in_session_no_repeat_witness :
    processWatchlistItem (⟨"X", flagsAll, .nonE, Option.none⟩ : Watch)
      [courtInSession] (some devTok) 5 42 =
      ⟨.in_session, some 42, [.in_session]⟩ ∧
    processWatchlistItem watchInSession [courtInSession] (some devTok)
      5 360001 = unchanged watchInSession :=
  ⟨(c1_in_session_no_repeat ⟨"X", flagsAll, .nonE, Option.none⟩ [courtInSession]
      devTok 5 42 courtInSession (by decide) rfl (by decide)).1
      ⟨rfl, by decide⟩,
   (c1_in_session_no_repeat watchInSession [courtInSession]
      devTok 5 360001 courtInSession (by decide) rfl (by decide)).2
      (Or.inr rfl)⟩

/-! ### C8 — at most one notification per decision -/

/-- C8: one `processWatchlistItem` run sends at most one alert, whatever the
subscription, snapshot, device, threshold and clock: the early-warning and
approaching blocks are mutually exclusive (`1 < position` vs `position = 1`)
and every other branch emits at most one. -/
theorem c8_at_most_one_alert :
    ∀ (watch : Watch) (courts : List CourtRec) (device : Option DeviceRec)
      (thr now : Int),
      (processWatchlistItem watch courts device thr now).alerts.length ≤ 1 := by
  intro watch courts device thr now
  unfold processWatchlistItem
  cases hf : findCaseInCourts courts watch.caseNumber with
  | none =>
    dsimp only
    split
    · cases device with
      | none => simp [unchanged]
      | some d =>
        dsimp only
        split <;> simp [unchanged]
    · simp [unchanged]
  | some court =>
    cases device with
    | none => simp [unchanged]
    | some d =>
      dsimp only
      split
      · simp [unchanged]
      · split
        · split <;> simp [unchanged]
        · split
          · split
            · simp [unchanged]
            · rename_i position hpos
              by_cases hp1 : position = 1
              · subst hp1
                have hfalse : ¬ ((1 : Int) ≤ thr ∧ 1 < (1 : Int)) := by
                  intro hc
                  exact absurd hc.2 (by norm_num)
                rw [if_neg hfalse, if_pos (show (1 : Int) = 1 from rfl)]
                split <;> simp [unchanged]
              · rw [if_neg hp1]
                split
                · split <;> simp [unchanged]
                · simp [unchanged]
          · simp [unchanged]

/-! ### C3 — monotonicity up to the completed re-arms -/

/-- C3 counterexample: from state `completed`, a case reappearing with
status IN_SESSION (flag on, device valid) moves the state to `in_session` —
a step backward along the order that is neither of the claim's two allowed
re-arm transitions (`completed → early_warning`, `completed → approaching`). -/
theorem c3_counterexample_completed_to_in_session :
    (processWatchlistItem watchCompleted [courtInSession] (some devTok)
        5 1000).lastNotificationSent = .in_session ∧
    watchCompleted.lastNotificationSent = .completed ∧
    rank .in_session < rank .completed ∧
    NotifState.in_session ≠ .early_warning ∧
    NotifState.in_session ≠ .approaching := by
  refine ⟨by decide, rfl, by decide, by decide, by decide⟩

/-- C3 amended: one decision step never moves `lastNotificationSent`
backward along `none → early_warning → approaching → in_session →
completed`, except for the re-arm transitions out of `completed`, which may
go to `early_warning`, `approaching` *or* `in_session`. -/
theorem c3_monotonic_with_completed_rearm :
    ∀ (watch : Watch) (courts : List CourtRec) (device : Option DeviceRec)
      (thr now : Int),
      (processWatchlistItem watch courts device thr now).lastNotificationSent =
          watch.lastNotificationSent ∨
      rank watch.lastNotificationSent <
        rank (processWatchlistItem watch courts device thr
          now).lastNotificationSent ∨
      (watch.lastNotificationSent = .completed ∧
        ((processWatchlistItem watch courts device thr
            now).lastNotificationSent = .early_warning ∨
         (processWatchlistItem watch courts device thr
            now).lastNotificationSent = .approaching ∨
         (processWatchlistItem watch courts device thr
            now).lastNotificationSent = .in_session)) := by
  intro watch courts device thr now
  obtain ⟨wcase, wflags, wlast, wtime⟩ := watch
  unfold processWatchlistItem
  dsimp only
  cases hf : findCaseInCourts courts wcase with
  | none =>
    dsimp only
    split
    · rename_i hstate
      cases device with
      | none => left; rfl
      | some d =>
        dsimp only
        split
        · rcases hstate with h | h <;>
            (right; left; rw [h]; norm_num [rank])
        · left; rfl
    · left; rfl
  | some court =>
    cases device with
    | none => left; rfl
    | some d =>
      dsimp only
      split
      · left; rfl
      · split
        · split
          · rename_i hcond
            simp only [Bool.and_eq_true, decide_eq_true_eq] at hcond
            have hne : wlast ≠ NotifState.in_session := hcond.2
            cases wlast with
            | nonE => right; left; norm_num [rank]
            | early_warning => right; left; norm_num [rank]
            | approaching => right; left; norm_num [rank]
            | in_session => exact absurd rfl hne
            | completed => right; right; exact ⟨rfl, Or.inr (Or.inr rfl)⟩
          · left; rfl
        · split
          · split
            · left; rfl
            · rename_i position hpos
              by_cases hp1 : position = 1
              · subst hp1
                have hfalse : ¬ ((1 : Int) ≤ thr ∧ 1 < (1 : Int)) := by
                  intro hc
                  exact absurd hc.2 (by norm_num)
                rw [if_neg hfalse, if_pos (show (1 : Int) = 1 from rfl)]
                split
                · rename_i hcond
                  simp only [Bool.and_eq_true, decide_eq_true_eq,
                    unchanged] at hcond
                  have hne : wlast ≠ NotifState.approaching ∧
                      wlast ≠ NotifState.in_session := ⟨hcond.1.2, hcond.2⟩
                  cases wlast with
                  | nonE => right; left; norm_num [rank]
                  | early_warning => right; left; norm_num [rank]
                  | approaching => exact absurd rfl hne.1
                  | in_session => exact absurd rfl hne.2
                  | completed => right; right; exact ⟨rfl, Or.inr (Or.inl rfl)⟩
                · left; rfl
              · rw [if_neg hp1]
                split
                · split
                  · rename_i hcond
                    simp only [Bool.and_eq_true, Bool.or_eq_true,
                      decide_eq_true_eq] at hcond
                    rcases hcond.2 with h | h
                    · rw [h]; right; left; norm_num [rank]
                    · rw [h]; right; right; exact ⟨rfl, Or.inl rfl⟩
                  · left; rfl
                · left; rfl
          · left; rfl

/-! ### C5 — case-info classification

The classification runs on `cleanText(row.caseinfo)`, which is trimmed; the
lemmas below establish that trimming is idempotent so that the
`isValidValue` check degenerates to `≠ ''` and `≠ '-'` on cleaned text. -/

theorem len_dropWhile_le (p : α → Bool) (l : List α) :
    (l.dropWhile p).length ≤ l.length := by
  induction l with
  | nil => simp
  | cons a t ih =>
    rw [List.dropWhile_cons]
    split
    · exact le_trans ih (by simp)
    · simp

theorem dropWhile_dropWhile (p : α → Bool) (l : List α) :
    (l.dropWhile p).dropWhile p = l.dropWhile p := by
  induction l with
  | nil => rfl
  | cons a t ih =>
    rw [List.dropWhile_cons]
    split
    · exact ih
    · rename_i h
      rw [List.dropWhile_cons, if_neg h]

/-- Removing a trailing run from a list with no leading run creates no
leading run: the front stays anchored at its non-`p` head. -/
theorem dropWhile_reverse_dropWhile (p : α → Bool) (l : List α)
    (h : l.dropWhile p = l) :
    ((l.reverse.dropWhile p).reverse).dropWhile p =
      (l.reverse.dropWhile p).reverse := by
  cases l with
  | nil => simp
  | cons a t =>
    have hpa : p a = false := by
      by_contra hpa'
      have hpa2 : p a = true := by simpa using hpa'
      rw [List.dropWhile_cons, if_pos hpa2] at h
      have hlen := len_dropWhile_le p t
      rw [h] at hlen
      simp at hlen
    rw [List.reverse_cons, List.dropWhile_append]
    split
    · simp [List.dropWhile_cons, hpa]
    · simp [List.reverse_append, List.dropWhile_cons, hpa]

theorem jsTrimL_idem (l : List Char) : jsTrimL (jsTrimL l) = jsTrimL l := by
  unfold jsTrimL
  have h2 := dropWhile_reverse_dropWhile isJsWs (l.dropWhile isJsWs)
    (dropWhile_dropWhile _ _)
  rw [h2, List.reverse_reverse, dropWhile_dropWhile]

theorem jsTrim_idem (s : String) : jsTrim (jsTrim s) = jsTrim s :=
  congrArg String.mk (jsTrimL_idem s.toList)

/-- The cleaned case-info text is already trimmed. -/
theorem cleanText_trimmed (t : Option String) :
    jsTrim (cleanText t) = cleanText t := by
  cases t with
  | none => decide
  | some s =>
    by_cases hs : s = ""
    · rw [hs]
      decide
    · simp only [cleanText]
      rw [if_neg hs]
      exact jsTrim_idem _

/-- C5: the normalizer classifies the cleaned case-info text with ordered
pattern rules — a "sitting over" match gives SITTING_OVER and no case
number; otherwise a "(RECESS)" marker gives RECESS with the marker-stripped
text as case number; otherwise non-empty, non-placeholder text gives
IN_SESSION with the text itself as case number; empty or `"-"` gives no
status and no case number. -/
theorem c5_case_info_classification :
    ∀ raw : Option String,
      (containsSittingOver (cleanText raw) = true →
        normalizeCaseInfo raw = ⟨some .SITTING_OVER, none⟩) ∧
      (containsSittingOver (cleanText raw) = false →
        containsSub "(RECESS)".toList (cleanText raw).toList = true →
        normalizeCaseInfo raw = ⟨some .RECESS,
          some (jsTrim (String.mk (replaceFirstL "(RECESS)".toList
            (cleanText raw).toList)))⟩) ∧
      (containsSittingOver (cleanText raw) = false →
        containsSub "(RECESS)".toList (cleanText raw).toList = false →
        cleanText raw ≠ "" → cleanText raw ≠ "-" →
        normalizeCaseInfo raw = ⟨some .IN_SESSION, some (cleanText raw)⟩) ∧
      ((cleanText raw = "" ∨ cleanText raw = "-") →
        normalizeCaseInfo raw = ⟨none, none⟩) := by
  intro raw
  refine ⟨?_, ?_, ?_, ?_⟩
  · intro hso
    have hne : cleanText raw ≠ "" := by
      intro h0
      rw [h0] at hso
      exact absurd hso (by decide)
    unfold normalizeCaseInfo classifyCaseInfo
    rw [if_neg hne, if_pos hso]
  · intro hso hrec
    have hne : cleanText raw ≠ "" := by
      intro h0
      rw [h0] at hrec
      exact absurd hrec (by decide)
    unfold normalizeCaseInfo classifyCaseInfo
    rw [if_neg hne, if_neg (by rw [hso]; simp), if_pos hrec]
  · intro hso hrec hne hnd
    have hval : isValidValue (cleanText raw) = true := by
      unfold isValidValue
      rw [cleanText_trimmed]
      simp [hne, hnd]
    unfold normalizeCaseInfo classifyCaseInfo
    rw [if_neg hne, if_neg (by rw [hso]; simp), if_neg (by rw [hrec]; simp),
      if_pos hval]
  · rintro (h | h)
    · unfold normalizeCaseInfo classifyCaseInfo
      rw [if_pos h]
    · unfold normalizeCaseInfo
      rw [h]
      decide

/-- Witness for C5: one concrete row per rule — a sitting-over footer, a
recess footer (case number = marker-stripped text), a running case number,
and the `"-"` placeholder. -/
theorem c5_case_info_classification_witness :
    normalizeCaseInfo (some "COURT SITTING OVER") =
      ⟨some .SITTING_OVER, none⟩ ∧
    normalizeCaseInfo (some "R/CR.MA/1234 (RECESS)") = ⟨some .RECESS,
      some (jsTrim (String.mk (replaceFirstL "(RECESS)".toList
        (cleanText (some "R/CR.MA/1234 (RECESS)")).toList)))⟩ ∧
    normalizeCaseInfo (some "R/SCR.A/99/2025") =
      ⟨some .IN_SESSION, some (cleanText (some "R/SCR.A/99/2025"))⟩ ∧
    normalizeCaseInfo (some "-") = ⟨none, none⟩ :=
  ⟨(c5_case_info_classification (some "COURT SITTING OVER")).1 (by decide),
   (c5_case_info_classification (some "R/CR.MA/1234 (RECESS)")).2.1
     (by decide) (by decide),
   (c5_case_info_classification (some "R/SCR.A/99/2025")).2.2.1
     (by decide) (by decide) (by decide) (by decide),
   (c5_case_info_classification (some "-")).2.2.2 (Or.inr (by decide))⟩

end CourtTracker
